import Mathlib

/-!
Verification of the rcmp recursive comparator (src/rcmp/__init__.py) against its
natural-language specification.  Each section embeds the relevant part of the
Python source as executable Lean definitions and settles one claim about it.
-/

set_option maxRecDepth 4000

/-! ## Verdicts and exceptions

`Same` and `Different` are Python classes used as constants (lines 519-537).
A comparator returning a non-True value signals an indeterminate result; we
model that as `Option Verdict` with `none` for the falsy value.
`IndeterminateResult` (line 792) is the exception raised by `Comparison.cmp`
when the comparator chain is exhausted. -/

inductive Verdict where
  | same
  | different
deriving DecidableEq

inductive RcmpError where
  | indeterminateResult
deriving DecidableEq

/-! ## The default comparator chain (lines 2266-2291)

`_ComparisonCommon.default_comparators` lists the comparator classes in order;
`BuriedPathComparator` and `XZComparator` are commented out in the source. -/

inductive CompName where
  | noSuchFile
  | inode
  | emptyFile
  | dir
  | arMemberMetadata
  | bitwise
  | symlink
  | elf
  | ar
  | am
  | configLog
  | kernelConf
  | bz2
  | gzip
  | zip
  | tarMemberMetadata
  | tar
  | cpioMemberMetadata
  | cpio
  | linkerMap
  | dateBlotBitwise
  | fail
deriving DecidableEq

def default_comparators : List CompName :=
  [CompName.noSuchFile, CompName.inode, CompName.emptyFile, CompName.dir,
   CompName.arMemberMetadata, CompName.bitwise, CompName.symlink, CompName.elf,
   CompName.ar, CompName.am, CompName.configLog, CompName.kernelConf,
   CompName.bz2, CompName.gzip, CompName.zip, CompName.tarMemberMetadata,
   CompName.tar, CompName.cpioMemberMetadata, CompName.cpio, CompName.linkerMap,
   CompName.dateBlotBitwise, CompName.fail]

/-! ## The dispatch loop and the aggregator recursion (C1)

A `Comparison.cmp` run (lines 2432-2448) walks the comparator list: a
comparator whose `applies` is false is skipped, a falsy `cmp` result moves to
the next comparator, `Same`/`Different` returns, and an exhausted list raises
`IndeterminateResult`.  Aggregators (`Box.cmp`, lines 934-963) recurse into
spooled child comparisons through `_inner_join` (lines 915-932); encoders
(`Encoder.cmp`, lines 2019-2033) run one child comparison and return its
verdict.  We abstract the behaviour of the chain at one pair of items into an
`Entry` per comparator: a `plain` entry records the comparator applicability
and its (possibly falsy) verdict, an `agg` entry records whether either outer
join produced `Different` together with the child comparisons spooled, and an
`enc` entry holds the single child comparison.  The dispatch, aggregator and
inner-join control flow is translated from the source; `Comparison_cmp` takes
fuel that bounds the aggregate nesting depth so that evaluation is structural. -/

inductive Entry where
  | plain (applies : Bool) (result : Option Verdict)
  | agg (applies : Bool) (outerDiff : Bool) (children : List (List Entry))
  | enc (applies : Bool) (child : List Entry)

/-- FailComparator._applies (lines 2139-2141): returns True for every item,
so Comparator.applies holds for every pair. -/
def FailComparator_applies : Bool := true

/-- FailComparator.cmp (lines 2143-2149): logs and returns Different. -/
def FailComparator_result : Option Verdict := some Verdict.different

def failEntry : Entry := Entry.plain FailComparator_applies FailComparator_result

/-- Box._inner_join (lines 915-932): retval starts at Same; each child
comparison is run (an escaping IndeterminateResult propagates); a Different
child sets retval and, under exit_asap, returns immediately.  The source line
922 `if not r` is dead code because `Comparison.cmp` never returns a falsy
value - it raises instead - so it has no counterpart here. -/
def innerJoinGo (child : List Entry → Except RcmpError Verdict) (exitAsap : Bool)
    (retval : Verdict) : List (List Entry) → Except RcmpError Verdict
  | [] => Except.ok retval
  | c :: rest =>
    match child c with
    | Except.error e => Except.error e
    | Except.ok r =>
      if r = Verdict.different then
        if exitAsap then Except.ok Verdict.different
        else innerJoinGo child exitAsap Verdict.different rest
      else innerJoinGo child exitAsap retval rest

def Box_inner_join (child : List Entry → Except RcmpError Verdict) (exitAsap : Bool)
    (children : List (List Entry)) : Except RcmpError Verdict :=
  innerJoinGo child exitAsap Verdict.same children

/-- Box.cmp (lines 934-963): if either outer join reported Different the
aggregate is Different (returning immediately under exit_asap, before the
inner join runs); otherwise the inner join decides, with retval Different
whenever the outer joins or any child was Different, else Same. -/
def Box_cmp (child : List Entry → Except RcmpError Verdict) (exitAsap : Bool)
    (outerDiff : Bool) (children : List (List Entry)) : Except RcmpError Verdict :=
  if outerDiff && exitAsap then Except.ok Verdict.different
  else
    match Box_inner_join child exitAsap children with
    | Except.error e => Except.error e
    | Except.ok ij =>
      if ij = Verdict.different then Except.ok Verdict.different
      else if outerDiff then Except.ok Verdict.different
      else Except.ok Verdict.same

/-- One step of the dispatch loop body: evaluate a single comparator at the
pair.  `Except.ok none` covers both a false `applies` (the loop continues)
and a falsy comparator result (the loop also continues). -/
def Entry_cmp (child : List Entry → Except RcmpError Verdict) (exitAsap : Bool) :
    Entry → Except RcmpError (Option Verdict)
  | Entry.plain applies result =>
    if applies then Except.ok result else Except.ok none
  | Entry.agg applies outerDiff children =>
    if applies then
      match Box_cmp child exitAsap outerDiff children with
      | Except.error e => Except.error e
      | Except.ok v => Except.ok (some v)
    else Except.ok none
  | Entry.enc applies c =>
    if applies then
      match child c with
      | Except.error e => Except.error e
      | Except.ok v => Except.ok (some v)
    else Except.ok none

/-- Comparison.cmp loop (lines 2432-2448): first authoritative verdict wins;
an exhausted list raises IndeterminateResult. -/
def chainGo (entry : Entry → Except RcmpError (Option Verdict)) :
    List Entry → Except RcmpError Verdict
  | [] => Except.error RcmpError.indeterminateResult
  | e :: rest =>
    match entry e with
    | Except.error err => Except.error err
    | Except.ok none => chainGo entry rest
    | Except.ok (some v) => Except.ok v

/-- Comparison.cmp, with fuel bounding the aggregate nesting depth (each
recursion into a child comparison consumes one unit). -/
def Comparison_cmp : Nat → Bool → List Entry → Except RcmpError Verdict
  | 0, _, _ => Except.error RcmpError.indeterminateResult
  | Nat.succ fuel, exitAsap, es =>
    chainGo (Entry_cmp (Comparison_cmp fuel exitAsap) exitAsap) es

/-- Recognise the behaviour of FailComparator at a pair: applies and returns
Different. -/
def isFailEntry : Entry → Bool
  | Entry.plain true (some Verdict.different) => true
  | _ => false

def entryChildrenOk (ok : List Entry → Bool) : Entry → Bool
  | Entry.plain _ _ => true
  | Entry.agg _ _ children => children.all ok
  | Entry.enc _ c => ok c

/-- A chain instance is default-chain shaped to depth `fuel` when its last
entry behaves like FailComparator and, recursively, so does every child
comparison chain spooled by its aggregators and encoders. -/
def failTerminated : Nat → List Entry → Bool
  | 0, _ => false
  | Nat.succ fuel, es =>
    (match es.getLast? with
     | some e => isFailEntry e
     | none => false)
    && es.all (entryChildrenOk (failTerminated fuel))

lemma chainGo_ok (E : Entry → Except RcmpError (Option Verdict)) :
    ∀ es : List Entry,
      (∀ e ∈ es, ∃ o, E e = Except.ok o) →
      (∀ e, es.getLast? = some e → E e = Except.ok (some Verdict.different)) →
      es ≠ [] →
      ∃ v, chainGo E es = Except.ok v := by
  intro es
  induction es with
  | nil => intro _ _ h; exact absurd rfl h
  | cons e rest ih =>
    intro hall hlast _
    obtain ⟨o, ho⟩ := hall e (List.mem_cons_self e rest)
    cases rest with
    | nil =>
      have hfd : E e = Except.ok (some Verdict.different) := hlast e rfl
      exact ⟨Verdict.different, by simp [chainGo, hfd]⟩
    | cons f rest2 =>
      cases o with
      | some v => exact ⟨v, by simp [chainGo, ho]⟩
      | none =>
        obtain ⟨v, hv⟩ := ih (fun x hx => hall x (List.mem_cons_of_mem e hx))
          (fun x hx => hlast x (by rw [List.getLast?_cons_cons]; exact hx))
          (by simp)
        exact ⟨v, by rw [← hv]; simp [chainGo, ho]⟩

lemma innerJoinGo_ok (child : List Entry → Except RcmpError Verdict) :
    ∀ (children : List (List Entry)),
      (∀ c ∈ children, ∃ v, child c = Except.ok v) →
      ∀ (ea : Bool) (retval : Verdict),
        ∃ v, innerJoinGo child ea retval children = Except.ok v := by
  intro children
  induction children with
  | nil => intro _ ea retval; exact ⟨retval, rfl⟩
  | cons c rest ih =>
    intro hall ea retval
    obtain ⟨v, hv⟩ := hall c (List.mem_cons_self c rest)
    have hrest := fun x hx => hall x (List.mem_cons_of_mem c hx)
    cases v with
    | same =>
      obtain ⟨w, hw⟩ := ih hrest ea retval
      exact ⟨w, by simp [innerJoinGo, hv, hw]⟩
    | different =>
      cases ea with
      | true => exact ⟨Verdict.different, by simp [innerJoinGo, hv]⟩
      | false =>
        obtain ⟨w, hw⟩ := ih hrest false Verdict.different
        exact ⟨w, by simp [innerJoinGo, hv, hw]⟩

lemma Box_cmp_ok (child : List Entry → Except RcmpError Verdict)
    (ea od : Bool) (children : List (List Entry))
    (hall : ∀ c ∈ children, ∃ v, child c = Except.ok v) :
    ∃ v, Box_cmp child ea od children = Except.ok v := by
  obtain ⟨w, hw⟩ := innerJoinGo_ok child children hall ea Verdict.same
  by_cases hod : (od && ea) = true
  · exact ⟨Verdict.different, by simp [Box_cmp, hod]⟩
  · cases w with
    | same =>
      cases od with
      | true =>
        exact ⟨Verdict.different, by simp [Box_cmp, hod, Box_inner_join, hw]⟩
      | false =>
        exact ⟨Verdict.same, by simp [Box_cmp, hod, Box_inner_join, hw]⟩
    | different =>
      exact ⟨Verdict.different, by simp [Box_cmp, hod, Box_inner_join, hw]⟩

lemma Entry_cmp_ok (fuel : Nat) (ea : Bool)
    (IH : ∀ es, failTerminated fuel es = true →
      ∃ v, Comparison_cmp fuel ea es = Except.ok v) :
    ∀ e, entryChildrenOk (failTerminated fuel) e = true →
      ∃ o, Entry_cmp (Comparison_cmp fuel ea) ea e = Except.ok o := by
  intro e hok
  cases e with
  | plain applies result =>
    cases applies with
    | true => exact ⟨result, rfl⟩
    | false => exact ⟨none, rfl⟩
  | agg applies od children =>
    cases applies with
    | false => exact ⟨none, rfl⟩
    | true =>
      have hall : ∀ c ∈ children, ∃ v, Comparison_cmp fuel ea c = Except.ok v := by
        intro c hc
        have := (List.all_eq_true.mp (by simpa [entryChildrenOk] using hok)) c hc
        exact IH c this
      obtain ⟨v, hv⟩ := Box_cmp_ok (Comparison_cmp fuel ea) ea od children hall
      exact ⟨some v, by simp [Entry_cmp, hv]⟩
  | enc applies c =>
    cases applies with
    | false => exact ⟨none, rfl⟩
    | true =>
      obtain ⟨v, hv⟩ := IH c (by simpa [entryChildrenOk] using hok)
      exact ⟨some v, by simp [Entry_cmp, hv]⟩

lemma Comparison_cmp_ok :
    ∀ (fuel : Nat) (ea : Bool) (es : List Entry),
      failTerminated fuel es = true →
      ∃ v, Comparison_cmp fuel ea es = Except.ok v := by
  intro fuel
  induction fuel with
  | zero => intro ea es h; simp [failTerminated] at h
  | succ fuel ih =>
    intro ea es h
    rw [failTerminated, Bool.and_eq_true] at h
    obtain ⟨hlast, hallok⟩ := h
    obtain ⟨e, he, hfe⟩ : ∃ e, es.getLast? = some e ∧ isFailEntry e = true := by
      cases hl : es.getLast? with
      | none => rw [hl] at hlast; simp at hlast
      | some e => rw [hl] at hlast; exact ⟨e, rfl, hlast⟩
    have hentries : ∀ x ∈ es, ∃ o,
        Entry_cmp (Comparison_cmp fuel ea) ea x = Except.ok o := by
      intro x hx
      exact Entry_cmp_ok fuel ea (fun c hc => ih ea c hc) x
        ((List.all_eq_true.mp hallok) x hx)
    have hfail : ∀ x, es.getLast? = some x →
        Entry_cmp (Comparison_cmp fuel ea) ea x = Except.ok (some Verdict.different) := by
      intro x hx
      have hxe : x = e := by rw [he] at hx; exact (Option.some_inj.mp hx).symm
      rw [hxe]
      cases e with
      | plain applies result =>
        cases applies with
        | false => simp [isFailEntry] at hfe
        | true =>
          cases result with
          | none => simp [isFailEntry] at hfe
          | some v =>
            cases v with
            | same => simp [isFailEntry] at hfe
            | different => rfl
      | agg applies od children => simp [isFailEntry] at hfe
      | enc applies c => simp [isFailEntry] at hfe
    have hne : es ≠ [] := by
      intro hnil
      rw [hnil] at he
      simp at he
    obtain ⟨v, hv⟩ := chainGo_ok (Entry_cmp (Comparison_cmp fuel ea) ea) es
      hentries hfail hne
    exact ⟨v, by rw [Comparison_cmp]; exact hv⟩

/-- C1: with the default comparator chain, Comparison.cmp never raises
IndeterminateResult: FailComparator is the last entry of
default_comparators, its applies predicate holds for every pair and its cmp
returns Different, so every chain instance that is fail-terminated (as every
instance of the default chain is, recursively through aggregator children)
produces an authoritative verdict instead of the IndeterminateResult error. -/
theorem C1_theorem :
    default_comparators.getLast? = some CompName.fail ∧
    failEntry = Entry.plain true (some Verdict.different) ∧
    ∀ (fuel : Nat) (exitAsap : Bool) (es : List Entry),
      failTerminated fuel es = true →
      Comparison_cmp fuel exitAsap es ≠ Except.error RcmpError.indeterminateResult := by
  refine ⟨by decide, rfl, ?_⟩
  intro fuel ea es h
  obtain ⟨v, hv⟩ := Comparison_cmp_ok fuel ea es h
  rw [hv]
  intro hbad
  exact Except.noConfusion hbad

def C1tree : List Entry :=
  [Entry.plain true none,
   Entry.agg true false [[failEntry]],
   Entry.enc false [failEntry],
   failEntry]

/-- Witness for C1: a concrete default-chain-shaped instance with an
aggregator child satisfies the hypothesis and yields no error. -/
theorem C1_witness :
    failTerminated 2 C1tree = true ∧
    Comparison_cmp 2 false C1tree ≠ Except.error RcmpError.indeterminateResult :=
  ⟨by decide, C1_theorem.2.2 2 false C1tree (by decide)⟩

/-! ## Scoped archive sessions (C2)

The archive openers `openar` (lines 1407-1414), `opencpio` (1514-1520),
`opentar` (1631-1638), `openzip` (1731-1742) and the `Encoder.open` methods
are generator-based `contextlib.contextmanager` functions of the shape
`h = acquire(); yield h; h.close()`, with no try/finally.  When the body of
the `with` statement raises, contextlib throws the exception into the
generator at the yield point, the exception propagates out of the generator,
and the `close()` line after the yield never runs.  We model each opener as a
function of the body outcome that returns the outcome together with the
number of times `close()` ran. -/

inductive ArchiveError where
  | badZipfile
  | indeterminateResult
  | adapterFault
deriving DecidableEq

namespace Scoped

/-- openar (lines 1407-1414): arpy.Archive acquired, headers read, yield,
close.  A body exception skips the close. -/
def openar (body : Except ArchiveError Verdict) : Except ArchiveError Verdict × Nat :=
  match body with
  | Except.ok v => (Except.ok v, 1)
  | Except.error e => (Except.error e, 0)

/-- opencpio (lines 1514-1520): same generator shape as openar. -/
def opencpio (body : Except ArchiveError Verdict) : Except ArchiveError Verdict × Nat :=
  match body with
  | Except.ok v => (Except.ok v, 1)
  | Except.error e => (Except.error e, 0)

/-- opentar (lines 1631-1638): same generator shape as openar. -/
def opentar (body : Except ArchiveError Verdict) : Except ArchiveError Verdict × Nat :=
  match body with
  | Except.ok v => (Except.ok v, 1)
  | Except.error e => (Except.error e, 0)

/-- openzip (lines 1731-1742): the zip is opened, then `if zip.testzip():
raise BadZipfile` runs before the yield - on a failed self-test the opened
zip is abandoned without close; otherwise the generator shape is as above. -/
def openzip (testzipFails : Bool) (body : Except ArchiveError Verdict) :
    Except ArchiveError Verdict × Nat :=
  if testzipFails then (Except.error ArchiveError.badZipfile, 0)
  else
    match body with
    | Except.ok v => (Except.ok v, 1)
    | Except.error e => (Except.error e, 0)

end Scoped

/-- C2 (code bug): the sessions are closed exactly once only on the normal
exit path.  On an exceptional exit - a child comparison raising
IndeterminateResult, an adapter fault, or a failed zip self-test - the
generator context managers skip the close, so the session is closed zero
times, contradicting the claimed release on every exit path. -/
theorem C2_code_eval :
    (Scoped.opentar (Except.ok Verdict.same)).2 = 1 ∧
    (Scoped.opentar (Except.error ArchiveError.indeterminateResult)).2 = 0 ∧
    (Scoped.openar (Except.error ArchiveError.adapterFault)).2 = 0 ∧
    (Scoped.opencpio (Except.error ArchiveError.indeterminateResult)).2 = 0 ∧
    (Scoped.openzip true (Except.ok Verdict.same)).2 = 0 := by
  decide

/-! ## Zip archives: self-test failure and open failure (C3)

`ZipComparator._applies` (lines 1758-1768) trial-opens the content and
returns False when the open throws.  `ZipComparator.cmp` (lines 1782-1792)
enters `openzip` for both sides - raising `BadZipfile` out of the comparator
when `testzip` reports a bad checksum - then compares archive comments and
otherwise defers to the aggregate `Box.cmp` (abstracted here as `inner`). -/

structure ZipArchive where
  opensOk : Bool
  testzipOk : Bool
  comment : String
deriving DecidableEq

/-- ZipComparator._applies (lines 1758-1768): try to open, except return
False. -/
def ZipComparator_applies (item : ZipArchive) : Bool := item.opensOk

/-- Entering openzip (lines 1736-1739): raise BadZipfile when the self-test
fails. -/
def openzip_enter (z : ZipArchive) : Except ArchiveError Unit :=
  if z.testzipOk then Except.ok () else Except.error ArchiveError.badZipfile

/-- ZipComparator.cmp (lines 1782-1792): enter both sessions (left first, as
contextlib.nested does), compare comments, else run the aggregate compare. -/
def ZipComparator_cmp (pair0 pair1 : ZipArchive)
    (inner : Except ArchiveError Verdict) : Except ArchiveError Verdict :=
  match openzip_enter pair0 with
  | Except.error e => Except.error e
  | Except.ok _ =>
    match openzip_enter pair1 with
    | Except.error e => Except.error e
    | Except.ok _ =>
      if pair0.comment ≠ pair1.comment then Except.ok Verdict.different
      else inner

def badZip : ZipArchive := ⟨true, false, ""⟩

def goodZip : ZipArchive := ⟨true, true, ""⟩

def badOpenZip : ZipArchive := ⟨false, true, ""⟩

/-- Counterexample to C3: a zip whose internal checksum self-test fails makes
ZipComparator.cmp propagate BadZipfile instead of producing Different. -/
theorem C3_counterexample :
    ZipComparator_cmp badZip goodZip (Except.ok Verdict.same)
      = Except.error ArchiveError.badZipfile ∧
    ZipComparator_cmp badZip goodZip (Except.ok Verdict.same)
      ≠ Except.ok Verdict.different :=
  ⟨rfl, fun h => Except.noConfusion h⟩

/-- C3 as amended: when the zip open itself throws, ZipComparator does not
apply (the chain moves on, ending in FailComparator with Different under the
default chain); when the checksum self-test fails, the BadZipfile exception
propagates out of ZipComparator.cmp. -/
theorem C3_theorem (item other z : ZipArchive) (inner : Except ArchiveError Verdict)
    (h : item.opensOk = false) (h₂ : other.testzipOk = false) :
    ZipComparator_applies item = false ∧
    ZipComparator_cmp other z inner = Except.error ArchiveError.badZipfile := by
  constructor
  · exact h
  · simp [ZipComparator_cmp, openzip_enter, h₂]

/-- Witness for C3 at concrete archives. -/
theorem C3_witness :
    badOpenZip.opensOk = false ∧ badZip.testzipOk = false ∧
    (ZipComparator_applies badOpenZip = false ∧
     ZipComparator_cmp badZip goodZip (Except.ok Verdict.same)
       = Except.error ArchiveError.badZipfile) :=
  ⟨by decide, by decide,
   C3_theorem badOpenZip badZip goodZip (Except.ok Verdict.same) (by decide) (by decide)⟩

/-! ## Item.stat on a missing filesystem path (C5)

`Item.stat` (lines 362-374) fills the `_statbuf` cache from the parent box;
for filesystem items that is `DirComparator.member_stat` (lines 1142-1147),
which calls `os.lstat` - raising OSError when the path does not exist.
`Item.exists` (lines 376-388) routes to `DirComparator.member_exists`
(lines 1133-1140), which is `os.path.exists`.  The filesystem is abstracted
as a partial map from path names to stat records; `os.lstat` on an absent
name raises. -/

inductive OSError where
  | enoent
deriving DecidableEq

structure StatBuf where
  st_ino : Nat
  st_dev : Nat
  st_size : Nat
  st_mode : Nat
deriving DecidableEq

/-- DirComparator.member_stat (lines 1142-1147): os.lstat, which raises for a
missing path. -/
def DirComparator_member_stat (fs : String → Option StatBuf) (name : String) :
    Except OSError StatBuf :=
  match fs name with
  | some sb => Except.ok sb
  | none => Except.error OSError.enoent

/-- DirComparator.member_exists (lines 1133-1140): os.path.exists. -/
def DirComparator_member_exists (fs : String → Option StatBuf) (name : String) : Bool :=
  (fs name).isSome

/-- Item.stat (lines 362-374): return the cached statbuf if present, else
look one up and cache it.  The result pairs the outcome with the new cache
state; a raised OSError leaves the cache empty. -/
def Item_stat (fs : String → Option StatBuf) (name : String)
    (statbuf : Option StatBuf) : Except OSError StatBuf × Option StatBuf :=
  match statbuf with
  | some sb => (Except.ok sb, some sb)
  | none =>
    match DirComparator_member_stat fs name with
    | Except.ok sb => (Except.ok sb, some sb)
    | Except.error e => (Except.error e, none)

/-- Item.exists (lines 376-388) for a filesystem item. -/
def Item_exists (fs : String → Option StatBuf) (name : String) : Bool :=
  DirComparator_member_exists fs name

def exceptStatOk (r : Except OSError StatBuf) : Bool :=
  match r with
  | Except.ok _ => true
  | Except.error _ => false

def fsEmpty : String → Option StatBuf := fun _ => none

/-- Counterexample to C5: reading stat on an Item whose filesystem path does
not exist faults (the OSError from os.lstat propagates) instead of recording
the item as absent without faulting. -/
theorem C5_counterexample :
    exceptStatOk (Item_stat fsEmpty "missing" none).1 = false := by
  decide

/-- C5 as amended: on a missing path, Item.stat propagates the OSError from
os.lstat and the stat cache stays empty; exists returns false. -/
theorem C5_theorem (fs : String → Option StatBuf) (name : String)
    (h : fs name = none) :
    (Item_stat fs name none).1 = Except.error OSError.enoent ∧
    (Item_stat fs name none).2 = none ∧
    Item_exists fs name = false := by
  refine ⟨?_, ?_, ?_⟩ <;>
    simp [Item_stat, Item_exists, DirComparator_member_stat,
      DirComparator_member_exists, h]

/-- Witness for C5 on the empty filesystem. -/
theorem C5_witness :
    fsEmpty "missing" = none ∧
    ((Item_stat fsEmpty "missing" none).1 = Except.error OSError.enoent ∧
     (Item_stat fsEmpty "missing" none).2 = none ∧
     Item_exists fsEmpty "missing" = false) :=
  ⟨rfl, C5_theorem fsEmpty "missing" rfl⟩

/-! ## The cpio aggregator opens the wrong content (C6)

`opencpio(filename, guts)` (lines 1514-1520) opens a cpio session over the
bytes it is given.  `CpioComparator.cmp` (lines 1563-1568) opens the left
session with `pair[0].name, pair[0].content` but the right session with
`pair[1].name, pair[0].content` - the left content appears twice. -/

structure CpioSession where
  name : String
  block : String
deriving DecidableEq

/-- opencpio (lines 1514-1520): the session reads the guts argument. -/
def opencpio (filename : String) (guts : String) : CpioSession :=
  ⟨filename, guts⟩

structure CpioItem where
  name : String
  content : String
deriving DecidableEq

/-- The two opencpio calls made by CpioComparator.cmp (lines 1563-1568),
with the argument expressions exactly as in the source. -/
def CpioComparator_cmp_opens (pair0 pair1 : CpioItem) : CpioSession × CpioSession :=
  (opencpio pair0.name pair0.content, opencpio pair1.name pair0.content)

def cpioLeft : CpioItem := ⟨"left.cpio", "AAA"⟩

def cpioRight : CpioItem := ⟨"right.cpio", "BBB"⟩

/-- C6 (code bug): the right-side cpio session is opened over the left-side
content, so with two archives of different payloads the right member
comparisons read the left payload. -/
theorem C6_code_eval :
    (CpioComparator_cmp_opens cpioLeft cpioRight).2.block = cpioLeft.content ∧
    (CpioComparator_cmp_opens cpioLeft cpioRight).2.block ≠ cpioRight.content := by
  decide

/-! ## Ignore matching (lines 724-745)

`ignoring(ignores, fname)` walks the list of compiled patterns and returns
the first one that matches, else False.  Compiled regex patterns are
abstracted as boolean predicates on names. -/

def ignoring (ignores : List (String → Bool)) (fname : String) :
    Option (String → Bool) :=
  ignores.find? (fun ig => ig fname)

/-! ## ComparisonList (C4)

`ComparisonList.__init__` (lines 2466-2492) filters each of the two name
sequences through the ignore set.  `ComparisonList.cmp` (lines 2495-2534)
compares the lengths: on a mismatch it logs Different, assigns the verdict
to a variable `retval` and returns it only under exit_asap; otherwise it
falls through到 the per-index loop over `range(0, max(length))`, where
indexing the shorter list raises IndexError.  The loop runs one Comparison
per index (an indeterminate child raises IndeterminateResult); its verdict
accumulator `result` is Different when some index was Different, else Same. -/

inductive CLOutcome where
  | verdict (v : Verdict)
  | indexError
  | indeterminate
deriving DecidableEq

/-- The per-index loop of ComparisonList.cmp (lines 2509-2529): `i` is the
next index, the second argument counts the remaining iterations up to
`max(length)`, and `result` is the accumulator.  `cmpAt` abstracts running
`Comparison(...).cmp()` on the pair of names at an index, with `none` for a
raised IndeterminateResult. -/
def clGo (cmpAt : String → String → Option Verdict) (ea : Bool)
    (l r : List String) : Nat → Nat → Verdict → CLOutcome
  | _, 0, result => CLOutcome.verdict result
  | i, Nat.succ k, result =>
    match l.get? i, r.get? i with
    | some a, some b =>
      (match cmpAt a b with
       | none => CLOutcome.indeterminate
       | some v =>
         if v = Verdict.different then
           if ea then CLOutcome.verdict Verdict.different
           else clGo cmpAt ea l r (i + 1) k Verdict.different
         else clGo cmpAt ea l r (i + 1) k result)
    | _, _ => CLOutcome.indexError

/-- ComparisonList.cmp (lines 2495-2534) for the two name sequences held in
`self.stuff`.  On a length mismatch, `retval = Different` is returned only
when exit_asap is set; otherwise control reaches the loop over
`range(0, max(length))`. -/
def ComparisonList_cmp (cmpAt : String → String → Option Verdict) (ea : Bool)
    (l r : List String) : CLOutcome :=
  if l.length = r.length then
    clGo cmpAt ea l r 0 (max l.length r.length) Verdict.same
  else if ea then CLOutcome.verdict Verdict.different
  else clGo cmpAt ea l r 0 (max l.length r.length) Verdict.same

/-- ComparisonList.__init__ (lines 2478-2492): each sequence keeps the names
the ignore set does not match, in order. -/
def ComparisonList_init (ignores : List (String → Bool))
    (stuff : List (List String)) : List (List String) :=
  stuff.map (fun lst => lst.filter (fun fname => !(ignoring ignores fname).isSome))

/-- C4 (code bug): with sequences of unequal length, cmp returns Different
immediately only under exit_asap; with exit_asap unset it reaches the
per-index loop bounded by the longer length and raises IndexError on the
shorter sequence.  With equal lengths the per-index behaviour matches the
claim: Different when some index is Different, else Same. -/
theorem C4_code_eval :
    ComparisonList_cmp (fun _ _ => some Verdict.same) true ["a"] []
      = CLOutcome.verdict Verdict.different ∧
    ComparisonList_cmp (fun _ _ => some Verdict.same) false ["a"] []
      = CLOutcome.indexError ∧
    ComparisonList_cmp (fun a b => if a = b then some Verdict.same else some Verdict.different)
      false ["a", "b"] ["a", "c"] = CLOutcome.verdict Verdict.different ∧
    ComparisonList_cmp (fun a b => if a = b then some Verdict.same else some Verdict.different)
      false ["a", "b"] ["a", "b"] = CLOutcome.verdict Verdict.same ∧
    ComparisonList_init [fun s => s == "skip"] [["a", "skip"], ["skip"]]
      = [["a"], []] := by
  decide

/-! ## Extended path packing and the outer joins (C7)

`_Packer` (lines 807-819) joins and splits extended names on a per-container
separator.  `Box._expand` (lines 852-864) iterates the container keys,
drops the expanded child names matched by the ignore set, and interns the
survivors.  `Box._outer_join` (lines 871-902) then builds the right-hand
candidate name, applies a second ignore check - to `litem.name`, the left
expanded name again, not to `rname` - and spools a child Comparison when the
member has a mate, or records Different when it has none.  Containers are
abstracted by their key function; interned items are identified by name. -/

/-- _Packer.join (lines 815-816). -/
def Packer_join (joiner left right : String) : String := left ++ joiner ++ right

/-- Match the separator against the front of the character list, returning
the remainder on success. -/
def dropSepChars : List Char → List Char → Option (List Char)
  | [], s => some s
  | _ :: _, [] => none
  | c :: cs, d :: ds => if c = d then dropSepChars cs ds else none

/-- Python str.split with a non-empty separator, over characters; the fuel
argument is at least the length of the input so it never runs out. -/
def splitGo (sep : List Char) : Nat → List Char → List Char → List (List Char)
  | 0, acc, s => [acc.reverse ++ s]
  | _ + 1, acc, [] => [acc.reverse]
  | n + 1, acc, c :: cs =>
    match dropSepChars sep (c :: cs) with
    | some rest => acc.reverse :: splitGo sep n [] rest
    | none => splitGo sep n (c :: acc) cs

/-- _Packer.split (lines 818-819): path.split(joiner). -/
def Packer_split (joiner path : String) : List String :=
  (splitGo joiner.toList (path.toList.length + 1) [] path.toList).map String.mk

/-- Box.member_shortname (lines 834-836): last component of the split. -/
def member_shortname (joiner name : String) : String :=
  (Packer_split joiner name).getLastD ""

/-- Box._expand (lines 852-864): pairs of short name and interned full name
for the keys whose expanded name the ignore set misses. -/
def Box_expand (keys : String → List String) (joiner : String)
    (ign : String → Option (String → Bool)) (itemName : String) :
    List (String × String) :=
  (keys itemName).filterMap (fun shortname =>
    let fullname := Packer_join joiner itemName shortname
    if (ign fullname).isSome then none else some (shortname, fullname))

/-- Box._mates (lines 866-869): the shortname occurs among the keys of the
container on the other side. -/
def Box_mates (keys : String → List String) (joiner : String)
    (litemName rparentName : String) : Bool :=
  (keys rparentName).contains (member_shortname joiner litemName)

/-- The loop body of Box._outer_join (lines 881-901), folded over the output
of _expand: the second ignore check tests `litem.name` (source line 883),
the right item is interned under the joined candidate name, and a mated
member is spooled (when `spool`) while an unmated one sets the Different
result. -/
def outerGo (keys : String → List String) (joiner : String)
    (ign : String → Option (String → Bool)) (rparentName : String)
    (spool : Bool) : List (String × String) → List (String × String) →
      Option Verdict → List (String × String) × Option Verdict
  | [], children, result => (children, result)
  | (shortname, litemName) :: rest, children, result =>
    let rname := Packer_join joiner rparentName shortname
    if (ign litemName).isSome then
      outerGo keys joiner ign rparentName spool rest children result
    else
      let ritemName := rname
      if Box_mates keys joiner litemName rparentName then
        outerGo keys joiner ign rparentName spool rest
          (if spool then children ++ [(litemName, ritemName)] else children) result
      else
        outerGo keys joiner ign rparentName spool rest children
          (some Verdict.different)

/-- Box._outer_join (lines 871-902): pick the two parents according to
`invert`, expand the left one, and run the join loop.  Returns the spooled
children and the result (none models the falsy initial value). -/
def Box_outer_join (keys : String → List String) (joiner : String)
    (ign : String → Option (String → Bool)) (pair : String × String)
    (invert spool : Bool) : List (String × String) × Option Verdict :=
  let lparent := if invert then pair.2 else pair.1
  let rparent := if invert then pair.1 else pair.2
  outerGo keys joiner ign rparent spool (Box_expand keys joiner ign lparent) [] none

def c7keys : String → List String := fun n =>
  if n = "L" ∨ n = "R" then ["m"] else []

def c7ign : String → Option (String → Bool) :=
  ignoring [fun s => s == "R/m"]

/-- C7 (code bug): with an ignore pattern matching exactly the right-hand
candidate name R/m, the outer join still spools the child pair, because the
second ignore check of the source tests the left expanded name (already
filtered by _expand, hence never matching) instead of the joined right-hand
name. -/
theorem C7_code_eval :
    (c7ign "R/m").isSome = true ∧
    (Box_outer_join c7keys "/" c7ign ("L", "R") false true).1 = [("L/m", "R/m")] ∧
    (Box_outer_join c7keys "/" c7ign ("L", "R") false true).2 = none := by
  decide

/-! ## Items, the registry and the synthetic root (C8, C9)

`Item.__init__` (lines 285-303) asserts that the parent is truthy and stores
it; the parent of an Item is normally another Item, but line 2537 constructs
the root as `Item('{root}', True)` with the Python boolean True - which
passes the truthiness assert.  The box defaults to DirComparator.  `Items`
(lines 468-517) is a class-level dict keyed by extended name, modelled as an
association list. -/

inductive PyVal where
  | pyTrue
  | itemRef (name : String)
deriving DecidableEq

structure ItemRec where
  name : String
  parent : PyVal
  box : CompName
deriving DecidableEq

/-- Item.__init__ (lines 285-303): both PyVal forms satisfy `assert parent`;
the box defaults to DirComparator. -/
def Item_init (name : String) (parent : PyVal) (box : Option CompName) : ItemRec :=
  ⟨name, parent, box.getD CompName.dir⟩

/-- Line 2537: `root = Item('{root}', True)` - the parent argument is the
boolean True. -/
def root : ItemRec := Item_init "{root}" PyVal.pyTrue none

/-- Items.find_or_create (lines 483-503): default the box, return the stored
Item for a known name (parent and box arguments unused), else create and
insert. -/
def Items_find_or_create (reg : List (String × ItemRec)) (name : String)
    (parent : PyVal) (box : Option CompName) : ItemRec × List (String × ItemRec) :=
  let boxv := box.getD CompName.dir
  match reg.lookup name with
  | some item => (item, reg)
  | none =>
    let x := Item_init name parent (some boxv)
    (x, (name, x) :: reg)

/-- Counterexample to C8: the synthetic root Item is not its own parent; its
parent field holds the Python boolean True, which is no Item at all. -/
theorem C8_counterexample :
    root.parent = PyVal.pyTrue ∧ root.parent ≠ PyVal.itemRef root.name := by
  decide

/-- C8 as amended: the root is constructed with the literal True as parent
(satisfying the constructor assert), so the root is not its own parent;
every Item freshly created through the registry carries exactly the parent
it was created with, and top-level Items are created with parent root
(Comparison.__init__, lines 2388-2392). -/
theorem C8_theorem (reg : List (String × ItemRec)) (name n : String)
    (p : PyVal) (b : Option CompName) (h : reg.lookup name = none) :
    root.parent = PyVal.pyTrue ∧
    root.parent ≠ PyVal.itemRef n ∧
    (Items_find_or_create reg name p b).1.parent = p := by
  refine ⟨rfl, by simp [root, Item_init], ?_⟩
  simp [Items_find_or_create, h, Item_init]

/-- Witness for C8: a fresh top-level name parented to the root. -/
theorem C8_witness :
    ([] : List (String × ItemRec)).lookup "top" = none ∧
    (root.parent = PyVal.pyTrue ∧
     root.parent ≠ PyVal.itemRef "{root}" ∧
     (Items_find_or_create [] "top" (PyVal.itemRef "{root}") none).1.parent
       = PyVal.itemRef "{root}") :=
  ⟨rfl, C8_theorem [] "top" "{root}" (PyVal.itemRef "{root}") none rfl⟩

lemma lookup_none_not_mem (reg : List (String × ItemRec)) (name : String)
    (h : reg.lookup name = none) : name ∉ reg.map Prod.fst := by
  induction reg with
  | nil => simp
  | cons kv rest ih =>
    rw [List.lookup] at h
    by_cases hk : name = kv.1
    · rw [show (name == kv.1) = true from beq_iff_eq.mpr hk] at h
      simp at h
    · rw [show (name == kv.1) = false from beq_eq_false_iff_ne.mpr hk] at h
      simp only [List.map_cons, List.mem_cons]
      rintro (hh | hh)
      · exact hk hh
      · exact (ih (by simpa using h)) hh

lemma lookup_cons_self (name : String) (x : ItemRec) (reg : List (String × ItemRec)) :
    ((name, x) :: reg).lookup name = some x := by
  simp [List.lookup]

lemma find_or_create_hit (reg : List (String × ItemRec)) (name : String)
    (p : PyVal) (b : Option CompName) (item : ItemRec)
    (hl : reg.lookup name = some item) :
    Items_find_or_create reg name p b = (item, reg) := by
  unfold Items_find_or_create
  rw [hl]

lemma find_or_create_miss (reg : List (String × ItemRec)) (name : String)
    (p : PyVal) (b : Option CompName) (hl : reg.lookup name = none) :
    Items_find_or_create reg name p b =
      (Item_init name p (some (b.getD CompName.dir)),
       (name, Item_init name p (some (b.getD CompName.dir))) :: reg) := by
  unfold Items_find_or_create
  rw [hl]

/-- C9: find_or_create returns the previously stored Item unchanged for a
known name, ignoring the later parent and box arguments, so repeated calls
with one name yield the identical Item and the registry keeps at most one
live Item per extended name. -/
theorem C9_theorem (reg : List (String × ItemRec)) (name : String)
    (p p₂ : PyVal) (b b₂ : Option CompName)
    (hnd : (reg.map Prod.fst).Nodup) :
    (∀ item, reg.lookup name = some item →
      Items_find_or_create reg name p b = (item, reg)) ∧
    (Items_find_or_create ((Items_find_or_create reg name p b).2) name p₂ b₂).1
      = (Items_find_or_create reg name p b).1 ∧
    (Items_find_or_create ((Items_find_or_create reg name p b).2) name p₂ b₂).2
      = (Items_find_or_create reg name p b).2 ∧
    (((Items_find_or_create reg name p b).2).map Prod.fst).Nodup := by
  cases hl : reg.lookup name with
  | some item =>
    have hfc := find_or_create_hit reg name p b item hl
    have hfc₂ := find_or_create_hit reg name p₂ b₂ item hl
    refine ⟨?_, ?_, ?_, ?_⟩
    · intro it hit
      rw [hfc, Option.some_inj.mp hit]
    · rw [hfc, hfc₂]
    · rw [hfc, hfc₂]
    · rw [hfc]
      exact hnd
  | none =>
    have hmem := lookup_none_not_mem reg name hl
    have hfc := find_or_create_miss reg name p b hl
    have hhit := find_or_create_hit
      ((name, Item_init name p (some (b.getD CompName.dir))) :: reg) name p₂ b₂
      (Item_init name p (some (b.getD CompName.dir)))
      (lookup_cons_self name (Item_init name p (some (b.getD CompName.dir))) reg)
    refine ⟨?_, ?_, ?_, ?_⟩
    · intro it hit
      exact Option.noConfusion hit
    · rw [hfc, hhit]
    · rw [hfc, hhit]
    · rw [hfc]
      simp only [List.map_cons, List.nodup_cons]
      exact ⟨hmem, hnd⟩

/-- Witness for C9: a registry with one unrelated binding. -/
theorem C9_witness :
    (([("other", root)] : List (String × ItemRec)).map Prod.fst).Nodup ∧
    ((∀ item, ([("other", root)] : List (String × ItemRec)).lookup "x" = some item →
        Items_find_or_create [("other", root)] "x" PyVal.pyTrue none
          = (item, [("other", root)])) ∧
     (Items_find_or_create
        ((Items_find_or_create [("other", root)] "x" PyVal.pyTrue none).2)
        "x" (PyVal.itemRef "y") (some CompName.tar)).1
       = (Items_find_or_create [("other", root)] "x" PyVal.pyTrue none).1 ∧
     (Items_find_or_create
        ((Items_find_or_create [("other", root)] "x" PyVal.pyTrue none).2)
        "x" (PyVal.itemRef "y") (some CompName.tar)).2
       = (Items_find_or_create [("other", root)] "x" PyVal.pyTrue none).2 ∧
     (((Items_find_or_create [("other", root)] "x" PyVal.pyTrue none).2).map
        Prod.fst).Nodup) :=
  ⟨by decide,
   C9_theorem [("other", root)] "x" PyVal.pyTrue (PyVal.itemRef "y")
     none (some CompName.tar) (by decide)⟩

/-! ## date_blot (C10)

`date_patterns` (lines 636-675) is a table of compiled regexes with fixed
replacement strings; `date_blot` (lines 677-692) applies `pattern.sub` for
each entry in table order.  We embed the eleven regexes as abstract syntax
(`Re`) and implement Python re matching semantics: leftmost match,
alternatives tried left to right, quantifiers greedy with backtracking.  A
match attempt returns the possible remaining suffixes in preference order;
the head is the match Python picks.  All regex recursion is fuelled so that
evaluation is structural and computable by the kernel. -/

inductive Re where
  | str : List Char → Re
  | istr : List Char → Re
  | digit : Re
  | alt : List Re → Re
  | seq : List Re → Re
  | star : Re → Re
  | rep : Re → Nat → Nat → Re
  | opt : Re → Re

def lowerChar (c : Char) : Char :=
  if 'A' ≤ c ∧ c ≤ 'Z' then Char.ofNat (c.toNat + 32) else c

def matchLit : List Char → List Char → List (List Char)
  | [], s => [s]
  | _ :: _, [] => []
  | c :: cs, d :: ds => if c = d then matchLit cs ds else []

def matchLitCI : List Char → List Char → List (List Char)
  | [], s => [s]
  | _ :: _, [] => []
  | c :: cs, d :: ds => if lowerChar c = lowerChar d then matchLitCI cs ds else []

def matchDigit : List Char → List (List Char)
  | [] => []
  | c :: cs => if '0' ≤ c ∧ c ≤ '9' then [cs] else []

/-- Sequencing: thread every suffix of the first part through the rest,
preserving preference order. -/
def matchSeqGo (m : Re → List Char → List (List Char)) :
    List Re → List Char → List (List Char)
  | [], s => [s]
  | r :: rs, s => (m r s).flatMap (fun t => matchSeqGo m rs t)

/-- Exactly n repetitions. -/
def matchRepExact (m : Re → List Char → List (List Char)) (r : Re) :
    Nat → List Char → List (List Char)
  | 0, s => [s]
  | n + 1, s => (m r s).flatMap (fun t => matchRepExact m r n t)

/-- At most n further repetitions, greedily (more repetitions preferred);
iterations that consume nothing are dropped, which is sound for the date
patterns because every starred or optional subpattern consumes at least one
character. -/
def matchUpTo (m : Re → List Char → List (List Char)) (r : Re) :
    Nat → List Char → List (List Char)
  | 0, s => [s]
  | n + 1, s =>
    ((m r s).filter (fun t => t.length < s.length)).flatMap
      (fun t => matchUpTo m r n t) ++ [s]

/-- Backtracking matcher: all suffixes remaining after a match of `re` at the
front of `s`, in Python preference order.  The fuel bounds the syntactic
nesting depth of the pattern. -/
def matchRe : Nat → Re → List Char → List (List Char)
  | 0, _, _ => []
  | _ + 1, Re.str w, s => matchLit w s
  | _ + 1, Re.istr w, s => matchLitCI w s
  | _ + 1, Re.digit, s => matchDigit s
  | fuel + 1, Re.alt rs, s => rs.flatMap (fun r => matchRe fuel r s)
  | fuel + 1, Re.seq rs, s => matchSeqGo (matchRe fuel) rs s
  | fuel + 1, Re.star r, s => matchUpTo (matchRe fuel) r s.length s
  | fuel + 1, Re.rep r lo hi, s =>
    (matchRepExact (matchRe fuel) r lo s).flatMap
      (fun t => matchUpTo (matchRe fuel) r (hi - lo) t)
  | fuel + 1, Re.opt r, s => matchUpTo (matchRe fuel) r 1 s

def reFuel : Nat := 30

def firstMatchEnd (r : Re) (s : List Char) : Option (List Char) :=
  (matchRe reFuel r s).head?

/-- re.sub: scan left to right; at each position take the preferred match if
any, emit the replacement and continue after the match, else copy one
character.  The date patterns never match the empty string, so a match
always makes progress; the fuel is at least the input length. -/
def subGo (r : Re) (repl : List Char) : Nat → List Char → List Char
  | 0, s => s
  | n + 1, s =>
    match s with
    | [] => []
    | c :: cs =>
      match firstMatchEnd r s with
      | some t =>
        if t.length < s.length then repl ++ subGo r repl n t
        else c :: subGo r repl n cs
      | none => c :: subGo r repl n cs

def patSub (r : Re) (repl s : List Char) : List Char :=
  subGo r repl (s.length + 1) s

def chRe (c : Char) : Re := Re.str [c]

def spRe : Re := chRe ' '

def digitsBetween (lo hi : Nat) : Re := Re.rep Re.digit lo hi

def digitsN (n : Nat) : Re := Re.rep Re.digit n n

/-- dow (line 636). -/
def dowRe : Re := Re.alt [Re.str "Sun".toList, Re.str "Mon".toList,
  Re.str "Tue".toList, Re.str "Wed".toList, Re.str "Thu".toList,
  Re.str "Fri".toList, Re.str "Sat".toList]

/-- moy (line 637). -/
def moyRe : Re := Re.alt [Re.str "Jan".toList, Re.str "Feb".toList,
  Re.str "Mar".toList, Re.str "Apr".toList, Re.str "May".toList,
  Re.str "Jun".toList, Re.str "Jul".toList, Re.str "Aug".toList,
  Re.str "Sep".toList, Re.str "Oct".toList, Re.str "Nov".toList,
  Re.str "Dec".toList]

/-- lmoy (line 638). -/
def lmoyRe : Re := Re.alt [Re.str "January".toList, Re.str "February".toList,
  Re.str "March".toList, Re.str "April".toList, Re.str "May".toList,
  Re.str "June".toList, Re.str "July".toList, Re.str "August".toList,
  Re.str "September".toList, Re.str "October".toList, Re.str "November".toList,
  Re.str "December".toList]

/-- The month alternation of the case-insensitive pattern (line 649). -/
def moyUpperRe : Re := Re.alt [Re.istr "JAN".toList, Re.istr "FEB".toList,
  Re.istr "MAR".toList, Re.istr "APR".toList, Re.istr "MAY".toList,
  Re.istr "JUN".toList, Re.istr "JUL".toList, Re.istr "AUG".toList,
  Re.istr "SEP".toList, Re.istr "OCT".toList, Re.istr "NOV".toList,
  Re.istr "DEC".toList]

/-- Lines 642-643. -/
def pat1 : Re := Re.seq [dowRe, spRe, moyRe, Re.star spRe, digitsBetween 1 2,
  spRe, digitsN 2, chRe ':', digitsN 2, chRe ':', digitsN 2, spRe,
  Re.alt [Re.str "PST".toList, Re.str "PDT".toList], spRe, digitsN 4]

/-- Lines 645-646. -/
def pat2 : Re := Re.seq [dowRe, spRe, moyRe, Re.star spRe, digitsBetween 1 2,
  spRe, digitsN 2, chRe ':', digitsN 2, chRe ':', digitsN 2, spRe, digitsN 4]

/-- Lines 649-650, the (?i) pattern. -/
def pat3 : Re := Re.seq [Re.star spRe, digitsBetween 1 2, spRe, moyUpperRe,
  spRe, digitsN 4, spRe, digitsN 2, chRe ':', digitsN 2]

/-- Line 653. -/
def pat4 : Re := Re.seq [lmoyRe, Re.star spRe, digitsBetween 1 2,
  Re.opt (chRe '\\'), chRe ',', spRe, digitsN 4]

/-- Line 656. -/
def pat5 : Re := Re.seq [dowRe, spRe, moyRe, Re.star spRe, digitsBetween 1 2,
  Re.star spRe, digitsN 4]

/-- Line 659. -/
def pat6 : Re := Re.seq [dowRe, Re.star spRe, digitsBetween 1 2, Re.star spRe,
  moyRe, Re.star spRe, digitsN 4]

/-- Line 662. -/
def pat7 : Re := Re.seq [dowRe, Re.star spRe, digitsBetween 1 2, Re.star spRe,
  lmoyRe, Re.star spRe, digitsN 4]

/-- Line 665. -/
def pat8 : Re := Re.seq [chRe '2', Re.star (chRe '0'), digitsN 2,
  Re.star (chRe '-'), digitsN 2, Re.star (chRe '-'), digitsN 2]

/-- Line 668. -/
def pat9 : Re := Re.seq [moyRe, spRe, digitsN 4]

/-- Line 671. -/
def pat10 : Re := Re.seq [digitsN 2, chRe ':', digitsN 2, chRe ':', digitsN 2]

/-- Line 674. -/
def pat11 : Re := Re.seq [digitsN 4, chRe '-', digitsN 2, chRe '-', digitsN 2,
  chRe 'T', digitsN 6, chRe 'Z']

/-- date_patterns (lines 640-675): the compiled patterns with their
replacement strings, in table order. -/
def date_patterns : List (Re × List Char) :=
  [(pat1, "Day Mon 00 00:00:00 LOC 2011".toList),
   (pat2, "Day Mon 00 00:00:00 2011".toList),
   (pat3, "00 MON 2011 00:00".toList),
   (pat4, "Month 00, 2011".toList),
   (pat5, "Day Mon 00 2011".toList),
   (pat6, "Day 00 Mon 2011".toList),
   (pat7, "Day 00 Month 2011".toList),
   (pat8, "2011-00-00".toList),
   (pat9, "Mon 2011".toList),
   (pat10, "00:00:00".toList),
   (pat11, "00000000T000000Z".toList)]

/-- date_blot (lines 677-692): apply each pattern substitution in order.
The source try/except around each substitution only swallows UnicodeError,
which cannot arise in this pure-character model. -/
def date_blot (s : List Char) : List Char :=
  date_patterns.foldl (fun acc pr => patSub pr.1 pr.2 acc) s

example : patSub pat10 "00:00:00".toList "a 13:13:13 b".toList
    = "a 00:00:00 b".toList := by decide

example : date_blot "Sun Feb  1 13:13:13 211-11-11".toList
    = "Sun Feb  1 00:00:00 2011-00-00".toList := by decide

example : date_blot "Sun Feb  1 00:00:00 2011-00-00".toList
    = "Day Mon 00 00:00:00 2011-00-00".toList := by decide

def blotInput : List Char := "Sun Feb  1 13:13:13 211-11-11".toList

/-- Counterexample to C10: date_blot is not idempotent.  On this input the
first pass turns `211-11-11` into the ISO placeholder (pattern 8) and
`13:13:13` into `00:00:00` (pattern 10); only then does the earlier
weekday-month-day-time-year pattern (pattern 2) match, so a second pass
rewrites the string again. -/
theorem C10_counterexample : date_blot (date_blot blotInput) ≠ date_blot blotInput := by
  decide

/-- C10 as amended: every replacement placeholder of the table is itself a
fixed point of the whole substitution pipeline, but this does not make
date_blot idempotent, because a later substitution can complete a match for
an earlier pattern. -/
theorem C10_theorem :
    (date_patterns.map Prod.snd).all (fun r => date_blot r == r) = true := by
  decide
